import Mathlib

set_option maxHeartbeats 1000000

/-!
Shallow embedding of `blk.game.server.ServerGame`
(src/src/blk/game/server/servergame.js) and the collaborator state it
manipulates, together with proofs of the specified properties of the
tick broadcast step, the player connection lifecycle, the block
mutation pipeline and the movement queueing entry point.

Collaborator classes referenced by the source but not under src/
(blk.env.Entity, blk.env.ChunkView, blk.GameState, blk.physics.ServerMovement)
are modelled from the specification; each such definition carries a doc
comment saying so.  External framework calls with no bearing on the
verified properties (logging, chat join, the map observer, the browser
client) are omitted.
-/

/-- Three-component vector (positions and velocities). The source stores
Float32 triples; no verified property performs arithmetic on them, so the
components are carried opaquely as integers (every concrete value the
claims touch, e.g. the spawn position, is integral). -/
abbrev Vec3 := ℤ × ℤ × ℤ

/-- Four-component vector (rotations). -/
abbrev Vec4 := ℤ × ℤ × ℤ × ℤ

/-- Modelled from the spec: blk.env.Entity's state record is not under src/;
per the spec an entity's transform state is position, rotation, velocity and
a last-update timestamp (`entity.state.time`, written by the tick loop). -/
structure EntityState where
  position : Vec3
  rotation : Vec4
  velocity : Vec3
  time : ℤ
  deriving DecidableEq

/-- A connected network user (gf.net.User): its session identity and its
transport-level wire id.  The user's opaque `data` slot (holding the Player)
is modelled as roster lookup by session id, see `ServerGame.findPlayer`. -/
structure User where
  sessionId : ℕ
  wireId : ℕ
  deriving DecidableEq

/-- Modelled from the spec: blk.env.Entity is not under src/.  An entity has
a server-assigned id, a flag set, an optional owning player (`entity.player`
in the source; the owner's user identity is what the source reads from it,
via `entity.player.getUser().wireId`), a transform state and the
`hasSentLatestState` dirty flag. -/
structure Entity where
  id : ℕ
  flags : ℕ
  player : Option User
  state : EntityState
  hasSentLatestState : Bool
  deriving DecidableEq

/-- A queued movement command; the source only reads its sequence number. -/
structure MoveCommand where
  sequence : ℤ
  deriving DecidableEq

/-- Modelled from the spec: blk.physics.ServerMovement is not under src/.
It holds the pending command queue and the two sequence counters the tick
broadcast step reads and writes (`lastSequence`, `lastSequenceSent`). -/
structure Movement where
  lastSequence : ℤ
  lastSequenceSent : ℤ
  queue : List MoveCommand
  deriving DecidableEq

/-- A server-side player (blk.game.server.ServerPlayer, not under src/,
modelled from the spec): the bound user, an optional owned entity
(arena-style: referenced by entity id), an optional chunk view and an
optional movement controller. -/
structure Player where
  user : User
  entity : Option ℕ
  view : Option Unit
  movement : Option Movement
  deriving DecidableEq

/-- The packets the server sends (blk.net.packets.*), with the fields the
source passes to `createData`. -/
inductive Packet where
  | entityCreate (id : ℕ) (flags : ℕ) (ownerWireId : ℕ)
      (position : Vec3) (rotation : Vec4) (velocity : Vec3)
  | entityDelete (id : ℕ)
  | entityPosition (sequence : ℤ) (entityStates : List EntityState)
  | readyPlayer
  | setBlock (x y z : ℤ) (blockData : ℕ)
  deriving DecidableEq

/-- Where a packet goes: `session.send(p, user)` targets one user,
`session.send(p)` broadcasts to every connected user. -/
inductive Dest where
  | user (sessionId : ℕ)
  | broadcast
  deriving DecidableEq

/-- One observable send on the session. -/
abbrev Sent := Packet × Dest

/-- The mutable server state reached through `this` in the source: the
roster (`this.state.players`), the map's entity table (`map.entities`), the
registered block-type set (`map.blockSet`), the block cells written through
chunk views, and the entity id counter `nextEntityId_`. -/
structure ServerGame where
  players : List Player
  entities : List Entity
  blockSet : List ℕ
  mapCells : ℤ × ℤ × ℤ → ℕ
  nextEntityId_ : ℕ

/-- Fresh server state: construction sets `this.nextEntityId_ = 0` with an
empty roster and entity table; the registered block types and initial map
contents are owned by external collaborators and taken as parameters. -/
def ServerGame.init (blockSet : List ℕ) (mapCells : ℤ × ℤ × ℤ → ℕ) : ServerGame :=
  { players := [], entities := [], blockSet := blockSet,
    mapCells := mapCells, nextEntityId_ := 0 }

/-- Modelled from the spec: the user's opaque per-connection `data` slot is
not under src/ (it is written by blk.GameState.addPlayer wiring and released
on removePlayer); per the spec each connected player is a member of exactly
one registry and a disconnect removes it and makes a later lookup find it
absent, so the slot is modelled as roster lookup by session id. -/
def ServerGame.findPlayer (g : ServerGame) (sessionId : ℕ) : Option Player :=
  g.players.find? (fun p => p.user.sessionId == sessionId)

/-- Truncation toward zero of a rational: the integer part, as produced by
the JavaScript `| 0` idiom before 32-bit wrapping. -/
def jsTrunc (q : ℚ) : ℤ := if q < 0 then -⌊-q⌋ else ⌊q⌋

/-- JavaScript ToInt32, the semantics of `(frame.time * 1000) | 0`:
truncate toward zero, then wrap into the signed 32-bit range. -/
def toInt32 (q : ℚ) : ℤ := (jsTrunc q + 2 ^ 31) % 2 ^ 32 - 2 ^ 31

/-- One tick's logical time (`frame.time`, seconds). -/
structure Frame where
  time : ℚ

/-- The entity scan of the broadcast step (source lines 213-221): walk the
entity table in order; every entity whose `hasSentLatestState` is false has
its state timestamp stamped with `t`, its stamped state pushed onto the
outgoing delta list, and its flag set.  Returns (delta list, new table). -/
def scanEntities (t : ℤ) : List Entity → List EntityState × List Entity
  | [] => ([], [])
  | e :: rest =>
    let (states, es) := scanEntities t rest
    if e.hasSentLatestState then
      (states, e :: es)
    else
      let e' := { e with state := { e.state with time := t },
                         hasSentLatestState := true }
      (e'.state :: states, e' :: es)

/-- The per-player sequence bookkeeping of the broadcast step (source lines
223-233): with no movement controller, `sequence` keeps its default -1 and
no sequence update is needed; with one, the packet sequence is
`lastSequence`, a sequence update is needed when it differs from
`lastSequenceSent`, and `lastSequenceSent` is set to `lastSequence`.
Returns (updated player, sequence, needsSequenceUpdate). -/
def ackPlayer (p : Player) : Player × ℤ × Bool :=
  match p.movement with
  | none => (p, -1, false)
  | some m =>
    ({ p with movement := some { m with lastSequenceSent := m.lastSequence } },
     m.lastSequence, m.lastSequence != m.lastSequenceSent)

/-- The player loop of the broadcast step (source lines 222-242): for each
roster player in order, do the sequence bookkeeping and, exactly when the
delta list is non-empty or a sequence update is needed, send one
EntityPosition packet to that player's user. -/
def broadcastPlayers (states : List EntityState) :
    List Player → List Player × List Sent
  | [] => ([], [])
  | p :: rest =>
    let (p', seq, needs) := ackPlayer p
    let (ps, sends) := broadcastPlayers states rest
    if states.length != 0 || needs then
      (p' :: ps, (Packet.entityPosition seq states, Dest.user p.user.sessionId) :: sends)
    else
      (p' :: ps, sends)

/-- `ServerGame.prototype.update`, broadcast section (source lines 213-242).
The phases before it — `session.poll()`, each player's `player.update(frame)`
and `state.update(frame)` — call collaborators outside src/
(gf.net, blk.game.server.ServerPlayer.update, blk.GameState.update); the
embedding takes the server state as of the start of the broadcast section,
which is the region the verified properties are about. -/
def ServerGame.update (g : ServerGame) (frame : Frame) :
    ServerGame × List Sent :=
  let (entityStates, entities') :=
    scanEntities (toInt32 (frame.time * 1000)) g.entities
  let (players', sends) := broadcastPlayers entityStates g.players
  ({ g with entities := entities', players := players' }, sends)

/-- `blk.env.Entity.Flags.USER_CONTROLLED`.  Modelled from the spec: the
flag enum is not under src/; the spec requires at minimum a USER_CONTROLLED
flag distinguishing player-driven entities. -/
def USER_CONTROLLED : ℕ := 1

/-- The fixed spawn position picked by `handleUserConnect`: (0, 80, 0). -/
def spawnPosition : Vec3 := (0, 80, 0)

/-- The owner wire id written into an EntityCreate packet:
`entity.player ? entity.player.getUser().wireId : 0xFF`. -/
def ownerWireId (e : Entity) : ℕ :=
  match e.player with
  | some u => u.wireId
  | none => 0xFF

/-- Modelled from the spec: a fresh blk.physics.ServerMovement (not under
src/) has an empty command queue and equal sequence counters (no
acknowledgment pending for a controller that has processed no command);
-1 is the source's sentinel for "no sequence". -/
def Movement.initial : Movement :=
  { lastSequence := -1, lastSequenceSent := -1, queue := [] }

/-- `ServerGame.prototype.handleUserConnect` (source lines 250-319).
In source order: create the Player and register it; (chat join, chunk view,
observer and view initialization touch only collaborators outside src/ and
carry no state the verified properties read, beyond `player.view` being
set); send one EntityCreate catch-up per existing entity to the connecting
user only; create the new entity with id `nextEntityId_++` at the spawn
position, flag it USER_CONTROLLED and cross-link it with the player; attach
a fresh movement controller; broadcast the new entity's EntityCreate to all
connected users; send ReadyPlayer to the connecting user only. -/
def ServerGame.handleUserConnect (g : ServerGame) (user : User) :
    ServerGame × List Sent :=
  let catchup : List Sent := g.entities.map (fun e =>
    (Packet.entityCreate e.id e.flags (ownerWireId e)
      e.state.position e.state.rotation e.state.velocity,
     Dest.user user.sessionId))
  let entity : Entity :=
    { id := g.nextEntityId_,
      flags := USER_CONTROLLED,
      player := some user,
      state := { position := spawnPosition, rotation := (0, 0, 0, 0),
                 velocity := (0, 0, 0), time := 0 },
      hasSentLatestState := false }
  let player : Player :=
    { user := user, entity := some entity.id,
      view := some (), movement := some Movement.initial }
  let g' := { g with players := g.players ++ [player],
                     entities := g.entities ++ [entity],
                     nextEntityId_ := g.nextEntityId_ + 1 }
  (g', catchup ++
    [(Packet.entityCreate entity.id entity.flags (ownerWireId entity)
        entity.state.position entity.state.rotation entity.state.velocity,
      Dest.broadcast),
     (Packet.readyPlayer, Dest.user user.sessionId)])

/-- `ServerGame.prototype.handleUserDisconnect` (source lines 326-353).
Look up the player from the user; absent means no-op.  If the player owns an
entity, remove it from the entity table (map.removeEntity, modelled from the
spec as removal by id) and broadcast EntityDelete.  Then tear down the view
and remove the player from the roster (blk.GameState.removePlayer is not
under src/; modelled from the spec: the player is removed from the registry
and released, so a later lookup finds it absent). -/
def ServerGame.handleUserDisconnect (g : ServerGame) (sessionId : ℕ) :
    ServerGame × List Sent :=
  match g.findPlayer sessionId with
  | none => (g, [])
  | some player =>
    let (g1, sends) :=
      match player.entity with
      | some eid =>
        ({ g with entities := g.entities.filter (fun e => e.id != eid) },
         [(Packet.entityDelete eid, Dest.broadcast)])
      | none => (g, [])
    let g2 := { g1 with players := (g1.players.filter
        (fun p => p.user.sessionId != sessionId)) }
    (g2, sends)

/-- Modelled from the spec: blk.env.ChunkView.setBlock is not under src/;
per the spec the view performs the write into the world's block cells and
reports back whether the stored value actually changed. -/
def viewSetBlock (g : ServerGame) (x y z : ℤ) (blockData : ℕ) :
    ServerGame × Bool :=
  let changed := g.mapCells (x, y, z) != blockData
  ({ g with mapCells := fun c =>
      if c = (x, y, z) then blockData else g.mapCells c },
   changed)

/-- `ServerGame.prototype.setBlock` (source lines 365-393).  Resolve the
player and view from the user, failing with `false` if either is absent;
validate a non-zero `blockData`'s high-order type (`blockData >> 8`, an
unsigned value on the wire) against `map.blockSet`, failing with `false`
when unknown; write through the view; broadcast SetBlock to all connected
users exactly when the stored value changed; return `true`. -/
def ServerGame.setBlock (g : ServerGame) (sessionId : ℕ) (x y z : ℤ)
    (blockData : ℕ) : ServerGame × List Sent × Bool :=
  match g.findPlayer sessionId with
  | none => (g, [], false)
  | some player =>
    match player.view with
    | none => (g, [], false)
    | some _ =>
      if blockData != 0 && !(g.blockSet.contains (blockData >>> 8)) then
        (g, [], false)
      else
        let (g', changed) := viewSetBlock g x y z blockData
        (g',
         if changed then [(Packet.setBlock x y z blockData, Dest.broadcast)]
         else [],
         true)

/-- Modelled from the spec: blk.physics.ServerMovement.queueCommands is not
under src/; per the spec it appends the ordered command list to the
per-player pending queue. -/
def Movement.queueCommands (m : Movement) (commands : List MoveCommand) :
    Movement :=
  { m with queue := m.queue ++ commands }

/-- `ServerGame.prototype.movePlayer` (source lines 402-410).  The source
casts `user.data` to a player without a null check: a user whose data slot
holds no player makes the `player.movement` read throw (modelled as
`Except.error`).  With a player, commands are queued when a movement
controller is attached (roster session ids are unique, one Player per
user, so updating the roster entry with this session id is the object
mutation of the source) and the call returns `true` either way. -/
def ServerGame.movePlayer (g : ServerGame) (sessionId : ℕ)
    (commands : List MoveCommand) : Except Unit (ServerGame × Bool) :=
  match g.findPlayer sessionId with
  | none => Except.error ()
  | some player =>
    match player.movement with
    | some _ =>
      Except.ok
        ({ g with players := g.players.map (fun q =>
            if q.user.sessionId == sessionId then
              { q with movement := (q.movement.map
                  (fun m => m.queueCommands commands)) }
            else q) },
         true)
    | none => Except.ok (g, true)

/-- A connection lifecycle event delivered by the network service. -/
inductive Event where
  | connect (u : User)
  | disconnect (sessionId : ℕ)

/-- The state transition of one lifecycle event. -/
def applyEvent (g : ServerGame) : Event → ServerGame
  | Event.connect u => (g.handleUserConnect u).1
  | Event.disconnect sid => (g.handleUserDisconnect sid).1

/-- Run a sequence of lifecycle events. -/
def runEvents (g : ServerGame) (events : List Event) : ServerGame :=
  events.foldl applyEvent g

/-- The entity ids assigned, in order, over a sequence of lifecycle events
(each connect assigns the current `nextEntityId_`). -/
def assignedIds (g : ServerGame) : List Event → List ℕ
  | [] => []
  | Event.connect u :: rest =>
    g.nextEntityId_ :: assignedIds (applyEvent g (Event.connect u)) rest
  | Event.disconnect sid :: rest =>
    assignedIds (applyEvent g (Event.disconnect sid)) rest

/-- Number of connect events in a sequence. -/
def countConnects : List Event → ℕ
  | [] => 0
  | Event.connect _ :: rest => countConnects rest + 1
  | Event.disconnect _ :: rest => countConnects rest

/-- The tick's delta set: the entities whose state was not yet sent at the
start of the broadcast step. -/
def dirtyEntities (g : ServerGame) : List Entity :=
  g.entities.filter (fun e => !e.hasSentLatestState)

/-- The states carried by this tick's EntityPosition packets: the delta
set's states, stamped with the frame-derived timestamp. -/
def deltaStates (g : ServerGame) (frame : Frame) : List EntityState :=
  (dirtyEntities g).map
    (fun e => { e.state with time := toInt32 (frame.time * 1000) })

/-- The packet sequence number the broadcast step sends to a player. -/
def seqOf (p : Player) : ℤ :=
  match p.movement with
  | some m => m.lastSequence
  | none => -1

/-- Whether a player's controller has an unacknowledged sequence number. -/
def needsSeq (p : Player) : Bool :=
  match p.movement with
  | some m => m.lastSequence != m.lastSequenceSent
  | none => false

/-- Whether a packet is an EntityPosition packet. -/
def isEntityPosition : Packet → Bool
  | Packet.entityPosition _ _ => true
  | _ => false

/-- How many EntityPosition packets in a send list target one user. -/
def countEPTo (sessionId : ℕ) (sends : List Sent) : ℕ :=
  (sends.filter (fun s =>
    isEntityPosition s.1 && (s.2 == Dest.user sessionId))).length

/-! ### Concrete states used by witnesses and counterexamples -/

/-- An all-empty world cell assignment. -/
def cells0 : ℤ × ℤ × ℤ → ℕ := fun _ => 0

/-- A connected user A. -/
def uA : User := { sessionId := 1, wireId := 10 }

/-- A connected user B. -/
def uB : User := { sessionId := 2, wireId := 11 }

/-- A zeroed entity transform state. -/
def stZero : EntityState :=
  { position := (0, 0, 0), rotation := (0, 0, 0, 0),
    velocity := (0, 0, 0), time := 0 }

/-- A movement controller with no acknowledgment pending
(`lastSequence = lastSequenceSent = 5`). -/
def mAcked : Movement := { lastSequence := 5, lastSequenceSent := 5, queue := [] }

/-- A player for user A owning entity 0 with controller `mAcked`. -/
def pAcked : Player :=
  { user := uA, entity := some 0, view := some (), movement := some mAcked }

/-- A dirty USER_CONTROLLED entity with id 0 owned by user A. -/
def eDirty : Entity :=
  { id := 0, flags := 1, player := some uA, state := stZero,
    hasSentLatestState := false }

/-- A server state with one player (no ack pending) and one dirty entity. -/
def gAcked : ServerGame :=
  { players := [pAcked], entities := [eDirty], blockSet := [],
    mapCells := cells0, nextEntityId_ := 1 }

/-- `stZero` stamped with millisecond time 2000. -/
def stT2000 : EntityState := { stZero with time := 2000 }

/-! ### Lemmas about the broadcast step -/

lemma ackPlayer_fst (p : Player) :
    (ackPlayer p).1 = { p with movement := (p.movement.map
      (fun m => { m with lastSequenceSent := m.lastSequence })) } := by
  cases p with
  | mk u en v mv => cases mv <;> simp [ackPlayer]

lemma ackPlayer_seq (p : Player) : (ackPlayer p).2.1 = seqOf p := by
  cases hm : p.movement <;> simp [ackPlayer, seqOf, hm]

lemma ackPlayer_needs (p : Player) : (ackPlayer p).2.2 = needsSeq p := by
  cases hm : p.movement <;> simp [ackPlayer, needsSeq, hm]

lemma scanEntities_fst (t : ℤ) (es : List Entity) :
    (scanEntities t es).1 = (es.filter (fun e => !e.hasSentLatestState)).map
      (fun e => { e.state with time := t }) := by
  induction es with
  | nil => rfl
  | cons e rest ih =>
    cases hs : e.hasSentLatestState <;>
      simp [scanEntities, hs, ih, List.filter_cons]

lemma scanEntities_snd (t : ℤ) (es : List Entity) :
    (scanEntities t es).2 = es.map (fun e =>
      if e.hasSentLatestState then e
      else { e with state := { e.state with time := t },
                    hasSentLatestState := true }) := by
  induction es with
  | nil => rfl
  | cons e rest ih =>
    cases hs : e.hasSentLatestState <;> simp [scanEntities, hs, ih]

lemma broadcastPlayers_cons (states : List EntityState) (p : Player)
    (rest : List Player) :
    broadcastPlayers states (p :: rest) =
      (if states.length != 0 || needsSeq p then
        ((ackPlayer p).1 :: (broadcastPlayers states rest).1,
         (Packet.entityPosition (seqOf p) states, Dest.user p.user.sessionId)
           :: (broadcastPlayers states rest).2)
      else ((ackPlayer p).1 :: (broadcastPlayers states rest).1,
            (broadcastPlayers states rest).2)) := by
  rw [← ackPlayer_seq, ← ackPlayer_needs]
  rcases hA : ackPlayer p with ⟨p1, sq⟩
  rcases sq with ⟨seq, needs⟩
  rcases hB : broadcastPlayers states rest with ⟨ps, sends⟩
  simp only [broadcastPlayers, hA, hB]

lemma broadcastPlayers_fst (states : List EntityState) (ps : List Player) :
    (broadcastPlayers states ps).1 = ps.map (fun p => (ackPlayer p).1) := by
  induction ps with
  | nil => rfl
  | cons p rest ih =>
    rw [broadcastPlayers_cons]
    by_cases hc : (states.length != 0 || needsSeq p) = true
    · rw [if_pos hc]
      simp [ih]
    · rw [if_neg hc]
      simp [ih]

lemma broadcastPlayers_snd (states : List EntityState) (ps : List Player) :
    (broadcastPlayers states ps).2 = ps.filterMap (fun p =>
      if states.length != 0 || needsSeq p then
        some (Packet.entityPosition (seqOf p) states, Dest.user p.user.sessionId)
      else none) := by
  induction ps with
  | nil => rfl
  | cons p rest ih =>
    rw [List.filterMap_cons, broadcastPlayers_cons]
    by_cases hc : (states.length != 0 || needsSeq p) = true
    · rw [if_pos hc, if_pos hc]
      simp [ih]
    · rw [if_neg hc, if_neg hc]
      simp [ih]

lemma countEPTo_cons (sessionId : ℕ) (s : Sent) (sends : List Sent) :
    countEPTo sessionId (s :: sends) =
      (if isEntityPosition s.1 && (s.2 == Dest.user sessionId) then 1 else 0) +
        countEPTo sessionId sends := by
  by_cases hc : (isEntityPosition s.1 && (s.2 == Dest.user sessionId)) = true
  · simp [countEPTo, List.filter_cons, hc]
    omega
  · simp [countEPTo, List.filter_cons, hc]

lemma countEPTo_broadcastPlayers (sessionId : ℕ) (states : List EntityState)
    (ps : List Player) :
    countEPTo sessionId (broadcastPlayers states ps).2 =
      (ps.filter (fun p => (p.user.sessionId == sessionId) &&
        (states.length != 0 || needsSeq p))).length := by
  induction ps with
  | nil => rfl
  | cons p rest ih =>
    rw [List.filter_cons, broadcastPlayers_cons]
    by_cases hc : (states.length != 0 || needsSeq p) = true
    · rw [if_pos hc, countEPTo_cons]
      by_cases hu : (p.user.sessionId == sessionId) = true
      · have hd : ((Dest.user p.user.sessionId == Dest.user sessionId)) = true := by
          simp only [beq_iff_eq] at hu ⊢
          rw [hu]
        simp [isEntityPosition, hd, hu, hc, ih]
        omega
      · have hd : ((Dest.user p.user.sessionId == Dest.user sessionId)) = false := by
          simp only [beq_iff_eq] at hu ⊢
          simpa using hu
        simp [isEntityPosition, hd, hu, ih]
    · rw [if_neg hc]
      have hcf : (states.length != 0 || needsSeq p) = false := by
        simpa using hc
      simp [hcf, ih]

lemma filter_sessionId_length (ps : List Player) (p : Player) (c : Player → Bool)
    (hnodup : (ps.map (fun q => q.user.sessionId)).Nodup) (hp : p ∈ ps) :
    (ps.filter (fun q => (q.user.sessionId == p.user.sessionId) && c q)).length =
      if c p then 1 else 0 := by
  induction ps with
  | nil => cases hp
  | cons a rest ih =>
    rw [List.filter_cons]
    rcases List.mem_cons.mp hp with rfl | hp'
    · have hnotin : p.user.sessionId ∉ rest.map (fun q => q.user.sessionId) :=
        (List.nodup_cons.mp hnodup).1
      have hrest : (rest.filter
          (fun q => (q.user.sessionId == p.user.sessionId) && c q)) = [] := by
        refine List.filter_eq_nil_iff.mpr ?_
        intro q hq
        have hne : q.user.sessionId ≠ p.user.sessionId := by
          intro h
          exact hnotin (h ▸ List.mem_map_of_mem (fun r => r.user.sessionId) hq)
        simp [hne]
      by_cases hcp : c p = true <;> simp [hcp, hrest]
    · have hnotin : a.user.sessionId ∉ rest.map (fun q => q.user.sessionId) :=
        (List.nodup_cons.mp hnodup).1
      have hne : a.user.sessionId ≠ p.user.sessionId := by
        intro h
        exact hnotin (h ▸ List.mem_map_of_mem (fun r => r.user.sessionId) hp')
      have := ih (List.nodup_cons.mp hnodup).2 hp'
      simpa [List.filter_cons, hne] using this

lemma eq_of_sessionId_eq (ps : List Player) (p q : Player)
    (hnodup : (ps.map (fun r => r.user.sessionId)).Nodup)
    (hp : p ∈ ps) (hq : q ∈ ps)
    (h : q.user.sessionId = p.user.sessionId) : q = p :=
  List.inj_on_of_nodup_map hnodup hq hp h

lemma update_snd (g : ServerGame) (f : Frame) :
    (g.update f).2 = (broadcastPlayers
      (scanEntities (toInt32 (f.time * 1000)) g.entities).1 g.players).2 := rfl

lemma update_entities (g : ServerGame) (f : Frame) :
    (g.update f).1.entities = g.entities.map (fun e =>
      if e.hasSentLatestState then e
      else { e with state := { e.state with time := toInt32 (f.time * 1000) },
                    hasSentLatestState := true }) := by
  have h : (g.update f).1.entities =
      (scanEntities (toInt32 (f.time * 1000)) g.entities).2 := rfl
  rw [h, scanEntities_snd]

lemma update_players (g : ServerGame) (f : Frame) :
    (g.update f).1.players = g.players.map (fun p => (ackPlayer p).1) := by
  have h : (g.update f).1.players = (broadcastPlayers
      (scanEntities (toInt32 (f.time * 1000)) g.entities).1 g.players).1 := rfl
  rw [h, broadcastPlayers_fst]

lemma update_states_eq_delta (g : ServerGame) (f : Frame) :
    (scanEntities (toInt32 (f.time * 1000)) g.entities).1 = deltaStates g f := by
  rw [scanEntities_fst]
  rfl

lemma update_allSent (f : Frame) (g : ServerGame) :
    ∀ e ∈ (g.update f).1.entities, e.hasSentLatestState = true := by
  rw [update_entities]
  intro e he
  rcases List.mem_map.mp he with ⟨a, _, rfl⟩
  by_cases hs : a.hasSentLatestState = true <;> simp [hs]

/-- Claim C2: in every single call of update(frame), each connected player is
sent either 0 or 1 EntityPosition packets; a player is sent exactly 1 if and
only if the tick's delta set (entities with hasSentLatestState false at the
start of the tick) is non-empty or that player's movement controller has
lastSequence != lastSequenceSent at the start of the broadcast step. -/
theorem claim_C2 (f : Frame) (g : ServerGame) (p : Player)
    (hp : p ∈ g.players)
    (hnodup : (g.players.map (fun q => q.user.sessionId)).Nodup) :
    countEPTo p.user.sessionId (g.update f).2 ≤ 1 ∧
    (countEPTo p.user.sessionId (g.update f).2 = 1 ↔
      (dirtyEntities g ≠ [] ∨ needsSeq p = true)) := by
  have hlen : ((scanEntities (toInt32 (f.time * 1000)) g.entities).1.length != 0) =
      decide (dirtyEntities g ≠ []) := by
    rw [scanEntities_fst]
    by_cases hd : (g.entities.filter (fun e => !e.hasSentLatestState)) = []
    · simp [hd, dirtyEntities]
    · have : (g.entities.filter (fun e => !e.hasSentLatestState)).length ≠ 0 :=
        fun h => hd (List.length_eq_zero.mp h)
      simp [dirtyEntities, hd, List.length_map, this]
  have hcount := countEPTo_broadcastPlayers p.user.sessionId
    (scanEntities (toInt32 (f.time * 1000)) g.entities).1 g.players
  have hfil := filter_sessionId_length g.players p
    (fun q => (scanEntities (toInt32 (f.time * 1000)) g.entities).1.length != 0
      || needsSeq q) hnodup hp
  rw [update_snd, hcount, hfil]
  by_cases hd : dirtyEntities g ≠ []
  · simp [hlen, hd]
  · by_cases hn : needsSeq p = true <;> simp [hlen, hd, hn]

/-- Witness for C2 at a concrete state: one dirty entity, one player. -/
theorem claim_C2_witness :
    countEPTo 1 ((gAcked.update { time := 2 }).2) ≤ 1 ∧
    (countEPTo 1 ((gAcked.update { time := 2 }).2) = 1 ↔
      (dirtyEntities gAcked ≠ [] ∨ needsSeq pAcked = true)) :=
  claim_C2 { time := 2 } gAcked pAcked (by decide) (by decide)

/-- Claim C10: after any call of update(frame) returns, every entity in the
entity table has hasSentLatestState true — the delta scan marks each dirty
entity as sent regardless of whether any player (possibly none) received a
packet — and such an entity never reappears in any later tick's delta set. -/
theorem claim_C10 (f : Frame) (g : ServerGame) (frames : List Frame) :
    (∀ e ∈ (g.update f).1.entities, e.hasSentLatestState = true) ∧
    dirtyEntities (frames.foldl (fun h fr => (h.update fr).1) (g.update f).1)
      = [] := by
  refine ⟨update_allSent f g, ?_⟩
  have key : ∀ (fs : List Frame) (h : ServerGame),
      (∀ e ∈ h.entities, e.hasSentLatestState = true) →
      dirtyEntities (fs.foldl (fun h fr => (h.update fr).1) h) = [] := by
    intro fs
    induction fs with
    | nil =>
      intro h hh
      refine List.filter_eq_nil_iff.mpr ?_
      intro e he
      simp [hh e he]
    | cons fr rest ih =>
      intro h _
      simpa only [List.foldl_cons] using ih _ (update_allSent fr h)
  exact key frames _ (update_allSent f g)

lemma toInt32_2000 : toInt32 ((2 : ℚ) * 1000) = 2000 := by
  norm_num [toInt32, jsTrunc]

lemma toInt32_4194304000 :
    toInt32 (({ time := 4194304 } : Frame).time * 1000) = -100663296 := by
  norm_num [toInt32, jsTrunc]

lemma gAcked_update_entities :
    (gAcked.update { time := 2 }).1.entities =
      [{ eDirty with state := stT2000, hasSentLatestState := true }] := by
  rw [update_entities]
  have ht : toInt32 (({ time := 2 } : Frame).time * 1000) = 2000 := toInt32_2000
  rw [ht]
  simp [gAcked, eDirty, stZero, stT2000]

lemma gAcked_update_snd :
    (gAcked.update { time := 2 }).2 =
      [(Packet.entityPosition 5 [stT2000], Dest.user 1)] := by
  rw [update_snd]
  have ht : toInt32 (({ time := 2 } : Frame).time * 1000) = 2000 := toInt32_2000
  rw [ht]
  have hscan : (scanEntities 2000 gAcked.entities).1 = [stT2000] := by
    simp [gAcked, scanEntities, eDirty, stZero, stT2000]
  rw [hscan]
  simp [gAcked, broadcastPlayers, ackPlayer, pAcked, mAcked, uA]

/-- Witness for C10 at a concrete state: the dirty entity of `gAcked` is
marked sent by the tick even though it is also the only entity, and the
delta set of the next state is empty. -/
theorem claim_C10_witness :
    ({ eDirty with state := stT2000, hasSentLatestState := true
        } : Entity).hasSentLatestState = true ∧
    dirtyEntities ((gAcked.update { time := 2 }).1) = [] :=
  ⟨(claim_C10 { time := 2 } gAcked []).1 _
      (by rw [gAcked_update_entities]; simp),
   (claim_C10 { time := 2 } gAcked []).2⟩

lemma toInt32_eq_floor (q : ℚ) (h0 : 0 ≤ q) (h1 : q < 2 ^ 31) :
    toInt32 q = ⌊q⌋ := by
  have hnl : ¬ q < 0 := not_lt.mpr h0
  have hf0 : (0 : ℤ) ≤ ⌊q⌋ := Int.floor_nonneg.mpr h0
  have hf1 : ⌊q⌋ < 2 ^ 31 := by
    have : q < ((2 ^ 31 : ℤ) : ℚ) := by push_cast; exact h1
    exact Int.floor_lt.mpr this
  unfold toInt32 jsTrunc
  rw [if_neg hnl]
  have hmod : (⌊q⌋ + 2 ^ 31) % 2 ^ 32 = ⌊q⌋ + 2 ^ 31 :=
    Int.emod_eq_of_lt (by omega) (by omega)
  omega

/-- Claim C9 (amended): for every frame, update(frame) rewrites each dirty
entity's state timestamp to ToInt32(frame.time * 1000) — the integer part of
frame.time * 1000 reduced into the signed 32-bit range, which equals the
plain integer part whenever 0 ≤ frame.time * 1000 < 2^31 — leaves every
already-sent entity untouched, and every state carried by an EntityPosition
packet of the tick bears exactly this frame-derived timestamp. -/
theorem claim_C9 (f : Frame) (g : ServerGame) :
    ((g.update f).1.entities = g.entities.map (fun e =>
      if e.hasSentLatestState then e
      else { e with state := { e.state with time := toInt32 (f.time * 1000) },
                    hasSentLatestState := true })) ∧
    (∀ pk d, (pk, d) ∈ (g.update f).2 → ∀ seq sts,
      pk = Packet.entityPosition seq sts → ∀ s ∈ sts,
      s.time = toInt32 (f.time * 1000)) ∧
    (0 ≤ f.time * 1000 → f.time * 1000 < 2 ^ 31 →
      toInt32 (f.time * 1000) = ⌊f.time * 1000⌋) := by
  refine ⟨update_entities g f, ?_, fun h0 h1 => toInt32_eq_floor _ h0 h1⟩
  intro pk d hmem seq sts hpk s hs
  rw [update_snd, broadcastPlayers_snd] at hmem
  rcases List.mem_filterMap.mp hmem with ⟨q, _, heq⟩
  by_cases hc : ((scanEntities (toInt32 (f.time * 1000)) g.entities).1.length
      != 0 || needsSeq q) = true
  · rw [if_pos hc] at heq
    have hpk2 : Packet.entityPosition (seqOf q)
        (scanEntities (toInt32 (f.time * 1000)) g.entities).1 = pk :=
      congrArg Prod.fst (Option.some.inj heq)
    rw [hpk] at hpk2
    have hsts : (scanEntities (toInt32 (f.time * 1000)) g.entities).1 = sts :=
      (Packet.entityPosition.injEq _ _ _ _).mp hpk2 |>.2
    rw [← hsts, scanEntities_fst] at hs
    rcases List.mem_map.mp hs with ⟨a, _, rfl⟩
    rfl
  · rw [if_neg hc] at heq
    cases heq

/-- Witness for C9 at a concrete state: the delta state sent at frame time 2
carries timestamp ToInt32(2000), which equals the integer part of 2000. -/
theorem claim_C9_witness :
    stT2000.time = toInt32 ((2 : ℚ) * 1000) ∧
    toInt32 ((2 : ℚ) * 1000) = ⌊(2 : ℚ) * 1000⌋ :=
  ⟨(claim_C9 { time := 2 } gAcked).2.1 (Packet.entityPosition 5 [stT2000])
      (Dest.user 1) (by rw [gAcked_update_snd]; simp) 5 [stT2000] rfl stT2000
      (by simp),
   (claim_C9 { time := 2 } gAcked).2.2 (by norm_num) (by norm_num)⟩

/-- A server state with one dirty entity and no players. -/
def gLate : ServerGame :=
  { players := [], entities := [eDirty], blockSet := [],
    mapCells := cells0, nextEntityId_ := 1 }

/-- Counterexample to C9 as stated: at frame.time = 4194304 seconds (a
double-exact value), frame.time * 1000 = 4194304000 ≥ 2^31, and the
`(frame.time * 1000) | 0` write wraps to -100663296, which is not the
integer part of frame.time * 1000. -/
theorem claim_C9_counterexample :
    ((ServerGame.update gLate { time := 4194304 }).1.entities.map
      (fun e => e.state.time)) = [(-100663296 : ℤ)] ∧
    ⌊(4194304 : ℚ) * 1000⌋ = 4194304000 ∧
    ((-100663296 : ℤ) ≠ 4194304000) := by
  refine ⟨?_, by norm_num, by decide⟩
  rw [update_entities, toInt32_4194304000]
  simp [gLate, eDirty, stZero]

/-- Claim C5 (amended): every EntityPosition packet sent by update(frame) to
a player carries the player's movement controller's lastSequence — or the
sentinel -1 exactly when the player has no movement controller attached (not
when no acknowledgment is pending) — together with the full delta set; and
after the broadcast step every player with a controller has
lastSequenceSent = lastSequence, so lastSequenceSent ≤ lastSequence is
preserved. -/
theorem claim_C5 (f : Frame) (g : ServerGame) (p : Player)
    (hp : p ∈ g.players)
    (hnodup : (g.players.map (fun q => q.user.sessionId)).Nodup) :
    (∀ seq sts,
      (Packet.entityPosition seq sts, Dest.user p.user.sessionId) ∈ (g.update f).2 →
        seq = seqOf p ∧ sts = deltaStates g f) ∧
    (∀ q ∈ (g.update f).1.players, ∀ m, q.movement = some m →
      m.lastSequenceSent = m.lastSequence) := by
  constructor
  · intro seq sts hmem
    rw [update_snd, broadcastPlayers_snd] at hmem
    rcases List.mem_filterMap.mp hmem with ⟨q, hq, heq⟩
    by_cases hc : ((scanEntities (toInt32 (f.time * 1000)) g.entities).1.length
        != 0 || needsSeq q) = true
    · rw [if_pos hc] at heq
      have heq2 := Option.some.inj heq
      have hqp : q.user.sessionId = p.user.sessionId := by
        have := congrArg Prod.snd heq2
        simpa using this
      have hqeq : q = p := eq_of_sessionId_eq g.players p q hnodup hp hq hqp
      have hpk := congrArg Prod.fst heq2
      simp only at hpk
      have := (Packet.entityPosition.injEq _ _ _ _).mp hpk
      refine ⟨?_, ?_⟩
      · rw [← this.1, hqeq]
      · rw [← this.2, update_states_eq_delta]
    · rw [if_neg hc] at heq
      cases heq
  · intro q hq m hm
    rw [update_players] at hq
    rcases List.mem_map.mp hq with ⟨a, _, rfl⟩
    rw [ackPlayer_fst] at hm
    cases ham : a.movement with
    | none => rw [ham] at hm; cases hm
    | some m0 =>
      rw [ham] at hm
      have := Option.some.inj hm
      rw [← this]

/-- Witness for C5 at a concrete state: the packet sent to player 1 carries
sequence seqOf pAcked = 5 and the full delta set, and the surviving
controller is fully acknowledged. -/
theorem claim_C5_witness :
    ((5 : ℤ) = seqOf pAcked ∧ [stT2000] = deltaStates gAcked { time := 2 }) ∧
    mAcked.lastSequenceSent = mAcked.lastSequence :=
  ⟨(claim_C5 { time := 2 } gAcked pAcked (by decide) (by decide)).1 5 [stT2000]
      (by rw [gAcked_update_snd]; simp [pAcked, uA]),
   (claim_C5 { time := 2 } gAcked pAcked (by decide) (by decide)).2 pAcked
      (by rw [update_players]
          simp [gAcked, ackPlayer_fst, pAcked, mAcked])
      mAcked rfl⟩

/-- Counterexample to C5 as stated: player 1's controller has
lastSequence = lastSequenceSent = 5, so no acknowledgment is pending, yet
the EntityPosition packet sent to it (triggered by the non-empty delta set)
carries sequence 5, not the sentinel -1. -/
theorem claim_C5_counterexample :
    (ServerGame.update gAcked { time := 2 }).2 =
      [(Packet.entityPosition 5 [stT2000], Dest.user 1)] ∧
    mAcked.lastSequence = mAcked.lastSequenceSent ∧
    ((5 : ℤ) ≠ -1) :=
  ⟨gAcked_update_snd, rfl, by decide⟩

/-- Claim C1: for every connected user with an owned entity, disconnecting
removes that entity from the entity table, broadcasts an EntityDelete for
its id exactly once, and a second disconnect for the same user is a safe
no-op (no state change, no further packet). -/
theorem claim_C1 (g : ServerGame) (sid : ℕ) (p : Player) (eid : ℕ)
    (hp : g.findPlayer sid = some p) (he : p.entity = some eid) :
    (∀ e ∈ (g.handleUserDisconnect sid).1.entities, e.id ≠ eid) ∧
    (g.handleUserDisconnect sid).2 =
      [(Packet.entityDelete eid, Dest.broadcast)] ∧
    (g.handleUserDisconnect sid).1.handleUserDisconnect sid =
      ((g.handleUserDisconnect sid).1, []) := by
  have hd : g.handleUserDisconnect sid =
      ({ g with entities := (g.entities.filter (fun e => e.id != eid)),
                players := (g.players.filter
                  (fun q => q.user.sessionId != sid)) },
       [(Packet.entityDelete eid, Dest.broadcast)]) := by
    simp [ServerGame.handleUserDisconnect, hp, he]
  refine ⟨?_, ?_, ?_⟩
  · intro e hemem
    rw [hd] at hemem
    have := List.of_mem_filter hemem
    simpa using this
  · rw [hd]
  · rw [hd]
    have hfind : ({ g with
        entities := (g.entities.filter (fun e => e.id != eid)),
        players := (g.players.filter (fun q => q.user.sessionId != sid))
        } : ServerGame).findPlayer sid = none := by
      refine List.find?_eq_none.mpr ?_
      intro q hq
      have := List.of_mem_filter hq
      simpa using this
    simp [ServerGame.handleUserDisconnect, hfind]

/-- Witness for C1 at a concrete state: disconnecting user 1 broadcasts one
EntityDelete for entity 0 and a repeated disconnect is a no-op. -/
theorem claim_C1_witness :
    (gAcked.handleUserDisconnect 1).2 =
      [(Packet.entityDelete 0, Dest.broadcast)] ∧
    (gAcked.handleUserDisconnect 1).1.handleUserDisconnect 1 =
      ((gAcked.handleUserDisconnect 1).1, []) :=
  ⟨(claim_C1 gAcked 1 pAcked 0 (by decide) rfl).2.1,
   (claim_C1 gAcked 1 pAcked 0 (by decide) rfl).2.2⟩

lemma contains_iff_mem (l : List ℕ) (a : ℕ) : (l.contains a = true) ↔ a ∈ l :=
  List.elem_iff

/-- Claim C3: setBlock returns false exactly when the user has no player or
no chunk view, or blockData is non-zero with an unregistered high-order type
(blockData >> 8); in every false-returning case nothing is broadcast and the
world cells are unchanged (a zero blockData always passes validation, as the
iff shows: for blockData = 0 only a missing player or view can fail). -/
theorem claim_C3 (g : ServerGame) (sid : ℕ) (x y z : ℤ) (d : ℕ) :
    ((g.setBlock sid x y z d).2.2 = false ↔
      (((g.findPlayer sid).bind Player.view = none) ∨
        (d ≠ 0 ∧ (d >>> 8) ∉ g.blockSet))) ∧
    ((((g.findPlayer sid).bind Player.view = none) ∨
        (d ≠ 0 ∧ (d >>> 8) ∉ g.blockSet)) →
      (g.setBlock sid x y z d).2.1 = [] ∧
      (g.setBlock sid x y z d).1.mapCells = g.mapCells) := by
  cases hf : g.findPlayer sid with
  | none => simp [ServerGame.setBlock, hf]
  | some p =>
    cases hv : p.view with
    | none => simp [ServerGame.setBlock, hf, hv]
    | some u =>
      by_cases hval : (d != 0 && !(g.blockSet.contains (d >>> 8))) = true
      · have hprop : d ≠ 0 ∧ (d >>> 8) ∉ g.blockSet := by
          have h1 := (Bool.and_eq_true _ _).mp hval
          refine ⟨by simpa using h1.1, ?_⟩
          have h2 := h1.2
          simp only [Bool.not_eq_true'] at h2
          intro hmem
          simp [(contains_iff_mem g.blockSet (d >>> 8)).mpr hmem] at h2
          exact h2 hmem
        simp [ServerGame.setBlock, hf, hv, hval, hprop]
      · have hprop : ¬ (d ≠ 0 ∧ (d >>> 8) ∉ g.blockSet) := by
          intro ⟨hd0, hmem⟩
          refine hval ((Bool.and_eq_true _ _).mpr ⟨by simpa using hd0, ?_⟩)
          simp only [Bool.not_eq_true']
          exact Bool.eq_false_iff.mpr
            (fun h => hmem ((contains_iff_mem g.blockSet (d >>> 8)).mp h))
        simp [ServerGame.setBlock, hf, hv, hval, hprop, viewSetBlock]

/-- Witness for C3 at a concrete state: a user with no player fails and
nothing is sent. -/
theorem claim_C3_witness :
    (gAcked.setBlock 2 0 0 0 5).2.2 = false ∧
    (gAcked.setBlock 2 0 0 0 5).2.1 = [] :=
  ⟨(claim_C3 gAcked 2 0 0 0 5).1.mpr (Or.inl (by decide)),
   ((claim_C3 gAcked 2 0 0 0 5).2 (Or.inl (by decide))).1⟩

/-- Claim C6: for a user with player and view and a valid blockData, setBlock
returns true; it broadcasts a SetBlock to all connected players exactly when
the stored cell value actually changed, and a no-op edit (cell already holds
the value) produces no broadcast. -/
theorem claim_C6 (g : ServerGame) (sid : ℕ) (x y z : ℤ) (d : ℕ) (p : Player)
    (hp : g.findPlayer sid = some p) (hv : p.view = some ())
    (hd : d = 0 ∨ (d >>> 8) ∈ g.blockSet) :
    (g.setBlock sid x y z d).2.2 = true ∧
    (g.mapCells (x, y, z) = d → (g.setBlock sid x y z d).2.1 = []) ∧
    (g.mapCells (x, y, z) ≠ d →
      (g.setBlock sid x y z d).2.1 =
        [(Packet.setBlock x y z d, Dest.broadcast)]) := by
  have hpropn : ¬(d ≠ 0 ∧ (d >>> 8) ∉ g.blockSet) := by
    rcases hd with rfl | hmem
    · simp
    · exact fun h => h.2 hmem
  refine ⟨?_, ?_, ?_⟩
  · simp [ServerGame.setBlock, hp, hv, hpropn, contains_iff_mem]
  · intro hsame
    simp [ServerGame.setBlock, hp, hv, hpropn, contains_iff_mem,
      viewSetBlock, hsame]
  · intro hdiff
    simp [ServerGame.setBlock, hp, hv, hpropn, contains_iff_mem,
      viewSetBlock, hdiff]

/-- Witness for C6 at a concrete state: writing 0 into a cell already 0 is
accepted and produces no broadcast. -/
theorem claim_C6_witness :
    (gAcked.setBlock 1 0 0 0 0).2.2 = true ∧
    (gAcked.setBlock 1 0 0 0 0).2.1 = [] :=
  ⟨(claim_C6 gAcked 1 0 0 0 0 pAcked (by decide) rfl (Or.inl rfl)).1,
   (claim_C6 gAcked 1 0 0 0 0 pAcked (by decide) rfl (Or.inl rfl)).2.1 rfl⟩

/-- Claim C7: handleUserConnect sends, in order, one EntityCreate catch-up
per live entity to the connecting user only (owner wire id 0xFF when the
entity has no owning player), then the broadcast EntityCreate for the new
USER_CONTROLLED entity created at the spawn position with the next
sequential id, then a ReadyPlayer to the connecting user only; in the
two-player scenario A's entity gets id 0, B's gets id 1, B receives the
catch-up for entity 0 before its own ReadyPlayer, and the EntityCreate for
entity 1 is broadcast while both A and B are connected. -/
theorem claim_C7 :
    (∀ (g : ServerGame) (u : User),
      (g.handleUserConnect u).2 =
        (g.entities.map (fun e =>
          (Packet.entityCreate e.id e.flags (ownerWireId e)
            e.state.position e.state.rotation e.state.velocity,
           Dest.user u.sessionId))) ++
        [(Packet.entityCreate g.nextEntityId_ USER_CONTROLLED u.wireId
            spawnPosition (0, 0, 0, 0) (0, 0, 0), Dest.broadcast),
         (Packet.readyPlayer, Dest.user u.sessionId)]) ∧
    (∀ (g : ServerGame) (u : User), ∀ e ∈ g.entities, e.player = none →
      (Packet.entityCreate e.id e.flags 0xFF
          e.state.position e.state.rotation e.state.velocity,
        Dest.user u.sessionId) ∈ (g.handleUserConnect u).2) ∧
    (((ServerGame.init [] cells0).handleUserConnect uA).2 =
      [(Packet.entityCreate 0 USER_CONTROLLED 10 spawnPosition
          (0, 0, 0, 0) (0, 0, 0), Dest.broadcast),
       (Packet.readyPlayer, Dest.user 1)]) ∧
    ((((ServerGame.init [] cells0).handleUserConnect uA).1.handleUserConnect
        uB).2 =
      [(Packet.entityCreate 0 USER_CONTROLLED 10 spawnPosition
          (0, 0, 0, 0) (0, 0, 0), Dest.user 2),
       (Packet.entityCreate 1 USER_CONTROLLED 11 spawnPosition
          (0, 0, 0, 0) (0, 0, 0), Dest.broadcast),
       (Packet.readyPlayer, Dest.user 2)]) ∧
    ((((ServerGame.init [] cells0).handleUserConnect uA).1.handleUserConnect
        uB).1.players.map (fun p => p.user.sessionId) = [1, 2]) ∧
    ((((ServerGame.init [] cells0).handleUserConnect uA).1.handleUserConnect
        uB).1.entities.map (fun e => e.id) = [0, 1]) := by
  refine ⟨fun g u => rfl, ?_, by decide, by decide, by decide, by decide⟩
  intro g u e he hnone
  refine List.mem_append.mpr (Or.inl ?_)
  refine List.mem_map.mpr ⟨e, he, ?_⟩
  rw [ownerWireId, hnone]

/-- Witness for C7: an entity with no owning player is announced to the
connecting user with owner wire id 0xFF. -/
theorem claim_C7_witness :
    (Packet.entityCreate 0 1 0xFF (0, 0, 0) (0, 0, 0, 0) (0, 0, 0),
      Dest.user 2) ∈
      (({ players := [], entities := [{ eDirty with player := none }],
          blockSet := [], mapCells := cells0, nextEntityId_ := 1
          } : ServerGame).handleUserConnect uB).2 :=
  claim_C7.2.1 _ uB { eDirty with player := none } (by decide) rfl

lemma nextEntityId_connect (g : ServerGame) (u : User) :
    (g.handleUserConnect u).1.nextEntityId_ = g.nextEntityId_ + 1 := rfl

lemma nextEntityId_disconnect (g : ServerGame) (sid : ℕ) :
    (g.handleUserDisconnect sid).1.nextEntityId_ = g.nextEntityId_ := by
  cases hf : g.findPlayer sid with
  | none => simp [ServerGame.handleUserDisconnect, hf]
  | some p =>
    cases hpe : p.entity <;> simp [ServerGame.handleUserDisconnect, hf, hpe]

lemma assignedIds_eq_range' (events : List Event) :
    ∀ g : ServerGame, assignedIds g events =
      List.range' g.nextEntityId_ (countConnects events) := by
  induction events with
  | nil => intro g; rfl
  | cons ev rest ih =>
    intro g
    cases ev with
    | connect u =>
      have hstep : List.range' g.nextEntityId_ (countConnects rest + 1) =
          g.nextEntityId_ :: List.range' (g.nextEntityId_ + 1)
            (countConnects rest) := rfl
      simp only [assignedIds, countConnects, hstep]
      rw [ih]
      simp [applyEvent, nextEntityId_connect]
    | disconnect sid =>
      simp only [assignedIds, countConnects]
      rw [ih]
      simp [applyEvent, nextEntityId_disconnect]

/-- Claim C4: over any sequence of connects and disconnects from a fresh
server, the entity ids assigned are exactly 0, 1, 2, ... in order — the k-th
entity created receives id k-1 — so ids are strictly increasing across the
server lifetime and never reassigned even after deletion. -/
theorem claim_C4 (blockSet : List ℕ) (cells : ℤ × ℤ × ℤ → ℕ)
    (events : List Event) :
    assignedIds (ServerGame.init blockSet cells) events =
      List.range (countConnects events) ∧
    (assignedIds (ServerGame.init blockSet cells) events).Pairwise (· < ·) := by
  have h := assignedIds_eq_range' events (ServerGame.init blockSet cells)
  have h0 : (ServerGame.init blockSet cells).nextEntityId_ = 0 := rfl
  rw [h0] at h
  have hr : assignedIds (ServerGame.init blockSet cells) events =
      List.range (countConnects events) := by
    rw [h, List.range_eq_range']
  exact ⟨hr, hr ▸ List.pairwise_lt_range _⟩

lemma find?_map_pres (l : List Player) (f : Player → Player)
    (pr : Player → Bool) (hf : ∀ q, pr (f q) = pr q) :
    (l.map f).find? pr = (l.find? pr).map f := by
  induction l with
  | nil => rfl
  | cons a rest ih =>
    by_cases ha : pr a = true
    · rw [List.map_cons, List.find?_cons_of_pos _ ((hf a).trans ha),
        List.find?_cons_of_pos _ ha]
      rfl
    · have ha' : ¬ pr a = true := ha
      rw [List.map_cons, List.find?_cons_of_neg _ (by rw [hf a]; exact ha'),
        List.find?_cons_of_neg _ ha', ih]

/-- Claim C8 (amended): for every user whose data slot holds a player,
movePlayer returns true; with a movement controller attached the commands
are appended to its queue and every other roster entry is untouched, and
with no controller the call is a silent no-op that still succeeds.  (For a
user with no player the source dereferences null and throws, see the
counterexample.) -/
theorem claim_C8 (g : ServerGame) (sid : ℕ) (cmds : List MoveCommand)
    (p : Player) (hp : g.findPlayer sid = some p) :
    ∃ g2, g.movePlayer sid cmds = Except.ok (g2, true) ∧
      (p.movement = none → g2 = g) ∧
      (∀ m, p.movement = some m →
        g2.findPlayer sid = some { p with
          movement := (some { m with queue := m.queue ++ cmds }) } ∧
        ∀ q ∈ g.players, q.user.sessionId ≠ sid → q ∈ g2.players) := by
  cases hm : p.movement with
  | none =>
    refine ⟨g, ?_, fun _ => rfl, ?_⟩
    · simp [ServerGame.movePlayer, hp, hm]
    · intro m hmm
      exact Option.noConfusion hmm
  | some m0 =>
    refine ⟨{ g with players := (g.players.map (fun q =>
        if q.user.sessionId == sid then
          { q with movement := (q.movement.map
              (fun mm => mm.queueCommands cmds)) }
        else q)) }, ?_, ?_, ?_⟩
    · simp [ServerGame.movePlayer, hp, hm]
    · intro hnone
      exact Option.noConfusion hnone
    · intro m hmm
      have hm0 : m0 = m := Option.some.inj hmm
      subst hm0
      have hp2 : g.players.find? (fun r => r.user.sessionId == sid) = some p :=
        hp
      have hps : (p.user.sessionId == sid) = true := by
        have := List.find?_some hp2
        simpa using this
      constructor
      · have hfpres : ∀ q : Player,
            (fun r : Player => r.user.sessionId == sid)
              ((fun q => if q.user.sessionId == sid then
                { q with movement := (q.movement.map
                    (fun mm => mm.queueCommands cmds)) }
                else q) q) =
            (fun r : Player => r.user.sessionId == sid) q := by
          intro q
          by_cases h : (q.user.sessionId == sid) = true <;> simp [h]
        show (List.map _ g.players).find? _ = _
        rw [find?_map_pres g.players _ _ hfpres]
        rw [show g.players.find? (fun r => r.user.sessionId == sid) = some p
          from hp]
        have hpe : p.user.sessionId = sid := by simpa using hps
        simp [hpe, Movement.queueCommands, hm]
      · intro q hq hne
        refine List.mem_map.mpr ⟨q, hq, ?_⟩
        have hqf : (q.user.sessionId == sid) = false := by
          simp [hne]
        simp [hqf]

/-- Witness for C8 at a concrete state: queueing a command for user 1
succeeds (no thrown error). -/
theorem claim_C8_witness :
    gAcked.movePlayer 1 [{ sequence := 9 }] ≠ Except.error () := by
  obtain ⟨g2, h1, -, -⟩ :=
    claim_C8 gAcked 1 [{ sequence := 9 }] pAcked (by decide)
  rw [h1]
  simp

/-- Counterexample to C8 as stated: a user whose data slot holds no player
(here: no player registered at all) makes movePlayer dereference null and
throw instead of returning true. -/
theorem claim_C8_counterexample :
    (ServerGame.init [] cells0).movePlayer 1 [] = Except.error () ∧
    (ServerGame.init [] cells0).movePlayer 1 [] ≠
      Except.ok (ServerGame.init [] cells0, true) := by
  refine ⟨rfl, ?_⟩
  intro h
  simp [ServerGame.movePlayer, ServerGame.findPlayer, ServerGame.init] at h
